import Mathlib

/-!
Verification of the continuous voice-activity conversation pipeline of the
ai_robo repository, shallowly embedded in Lean.

The embedding covers:
* the utterance segmenter of `src/voice_system/audio/recorder.py`
  (`AudioRecorder._is_silence`, `AudioRecorder._detect_sound` and the
  capture loop of `AudioRecorder._continuous_recording_worker`);
* the per-turn pipeline orchestrators
  (`FastVoiceConversation._process_audio_file_fast`,
  `OptimizedVoiceConversation._process_audio_file_optimized`,
  `VoiceConversation._process_audio_file`) together with the
  `performance_stats` bookkeeping;
* the lazy-start logic of
  `OptimizedVoiceConversation._wait_for_initialization`;
* the start/stop state handling of `AudioRecorder.start_continuous_recording`
  and the `start_conversation` entry points.

Machine floats of the source are modelled as exact rationals, PCM sample
words as integers, the byte stream as a list of frames, and each fallible
engine call as an `Except` value.  Threads are modelled by their observable
effects: events emitted on the handler thread, the outcome a pool worker
would observe, and counters of live capture threads.
-/

/-! ## Utterance segmenter (recorder.py) -/

/-- One PCM chunk as read from the stream: the signed 16-bit samples that
`struct.unpack` recovers inside `AudioRecorder._is_silence`. -/
abbrev Frame := List Int

/-- Peak absolute amplitude of a frame:
`max_amplitude = max(abs(sample) for sample in samples)`.
For the empty frame the fold yields 0 (the source would raise on an empty
chunk; chunks from the device are never empty). -/
def maxAmplitude (f : Frame) : Nat :=
  f.foldl (fun m x => max m x.natAbs) 0

/-- Model of `AudioRecorder._is_silence`: the peak amplitude normalised by 32768 is
below the threshold.  The float arithmetic of the source is modelled
exactly over the rationals. -/
def is_silence (thr : ℚ) (f : Frame) : Bool :=
  decide ((maxAmplitude f : ℚ) / 32768 < thr)

/-- Model of `AudioRecorder._detect_sound`: read one chunk and report whether it is
not silence.  The chunk consumed here is *not* handed to the capture
buffer by the source. -/
def detect_sound (thr : ℚ) (f : Frame) : Bool :=
  ! is_silence thr f

/-- The inner capture loop of `AudioRecorder._continuous_recording_worker`
(`for frame_count in range(max_frames): ...`).

Arguments after the configuration: remaining loop iterations
(`max_frames - frame_count`), the current `silence_count`, and the stream.
Returns the buffered frames, the part of the stream not consumed, and
whether the loop finished (`true`).  If the stream is exhausted while the
loop still wants to read, the source would block in `stream.read` forever;
this is modelled by the flag being `false` (and nothing is ever emitted).
The `self.is_recording` early exit is not modelled: the worker is studied
while recording is active. -/
def captureLoop (thr : ℚ) (maxSil : ℕ) : ℕ → ℕ → List Frame → List Frame × List Frame × Bool
  | 0, _, stream => ([], stream, true)
  | _ + 1, _, [] => ([], [], false)
  | fuel + 1, sc, f :: rest =>
    if is_silence thr f then
      if maxSil ≤ sc + 1 then ([f], rest, true)
      else
        match captureLoop thr maxSil fuel (sc + 1) rest with
        | (buf, r, c) => (f :: buf, r, c)
    else
      match captureLoop thr maxSil fuel 0 rest with
      | (buf, r, c) => (f :: buf, r, c)

/-- Fuel-indexed body of the `while self.is_recording:` loop of
`AudioRecorder._continuous_recording_worker`.  In the idle state one chunk
is consumed by `_detect_sound`; a loud chunk starts a capture on the
*following* chunks.  A finished buffer shorter than `minFrames`
(`int(0.5 * sample_rate / chunk_size)` in the source) is discarded;
otherwise it is written to a file and the completion callback fires, which
the model records by emitting the buffer.  The fuel only bounds the number
of idle-loop iterations; each iteration consumes at least one chunk, so
fuel `stream.length` is always enough. -/
def workerAux (thr : ℚ) (maxSil maxFrames minFrames : ℕ) : ℕ → List Frame → List (List Frame)
  | _, [] => []
  | 0, _ :: _ => []
  | fuel + 1, f :: rest =>
    if detect_sound thr f then
      match captureLoop thr maxSil maxFrames 0 rest with
      | (buf, r, complete) =>
        if complete then
          if buf.length < minFrames then workerAux thr maxSil maxFrames minFrames fuel r
          else buf :: workerAux thr maxSil maxFrames minFrames fuel r
        else []
    else workerAux thr maxSil maxFrames minFrames fuel rest

/-- Model of `AudioRecorder._continuous_recording_worker` run over a finite stream of
chunks: the list of utterance buffers it emits (each one corresponds to a
written WAV file plus one invocation of the completion callback). -/
def continuous_recording_worker (thr : ℚ) (maxSil maxFrames minFrames : ℕ)
    (stream : List Frame) : List (List Frame) :=
  workerAux thr maxSil maxFrames minFrames stream.length stream

/-- The running `silence_count` of the capture loop: starting from `sc`, it
is incremented by every below-threshold frame and reset to zero by every
above-threshold frame. -/
def silenceRun (thr : ℚ) (sc : ℕ) (l : List Frame) : ℕ :=
  l.foldl (fun s f => if is_silence thr f then s + 1 else 0) sc

/-- The frame stream of the spec scenario: amplitudes [0,0,1500,1500,0,0,0],
one sample per frame. -/
def scenarioFrames : List Frame :=
  [[0], [0], [1500], [1500], [0], [0], [0]]

/-! ## Pipeline orchestrator (fast_voice_conversation.py and friends)

The per-turn handler is modelled as a pure function of the results the
external engines would return for this turn.  Callbacks and pool
submissions are recorded as events; the outcome a pool worker would
observe for the submitted synthesis task is kept separately, because the
handler never reads it (the returned future is dropped by the source). -/

/-- Python whitespace characters relevant to `str.strip()` (ASCII part). -/
def pyIsSpace (c : Char) : Bool :=
  c = ' ' || c = '\t' || c = '\n' || c = '\r' || c = '\x0b' || c = '\x0c'

/-- Test `not user_text.strip()`: the text is empty or whitespace-only. -/
def isBlank (s : String) : Bool :=
  s.data.all pyIsSpace

/-- Observable events the handler emits on its own thread, in order. -/
inductive Event where
  | userSpeechCb : String → Event
  | aiResponseCb : String → Event
  | errorCb : String → Event
  | synthSubmitted : String → Event
deriving DecidableEq

/-- Which of the three nullable callback fields are set. -/
structure Callbacks where
  onUserSpeech : Bool
  onAiResponse : Bool
  onError : Bool
deriving DecidableEq

/-- The results the external engines return for one turn.  `transcribe` is
the outcome of the transcription call on this utterance, `chat` the reply
engine, `synthesize` the synthesis-and-playback task body. -/
structure Engines where
  transcribe : Except String String
  chat : String → Except String String
  synthesize : String → Except String Unit

/-- The `performance_stats` dictionary of `FastVoiceConversation` /
`OptimizedVoiceConversation`. -/
structure PerfStats where
  total_requests : ℕ
  total_time : ℚ
  avg_response_time : ℚ
deriving DecidableEq

deriving instance DecidableEq for Except

/-- Everything observable about one invocation of the per-turn handler:
the events emitted on the handler thread, the statistics afterwards,
whether the recording file was deleted, the text the reply engine was
invoked with (`none` when it was never called), and the outcome the pool
worker observes for the submitted synthesis task (`none` when nothing was
submitted). -/
structure TurnResult where
  events : List Event
  stats : PerfStats
  fileDeleted : Bool
  chatCalledWith : Option String
  synthOutcome : Option (Except String Unit)
deriving DecidableEq

/-- The events an except-handler emits: `on_error` fires only when set. -/
def errEvents (cb : Callbacks) (e : String) : List Event :=
  if cb.onError then [Event.errorCb e] else []

/-- Model of `FastVoiceConversation._process_audio_file_fast`, for one utterance:
transcribe; discard on blank text; `on_user_speech`; reply; an
`on_ai_response`; submit synthesis+playback to the pool; delete the
recording file; update `performance_stats`.  Any exception raised on the
handler thread jumps to the `except` block, which reports through
`on_error` and returns.  `latency` is the wall-clock duration the source
measures for this turn. -/
def processAudioFileFast (eng : Engines) (cb : Callbacks) (latency : ℚ)
    (stats : PerfStats) : TurnResult :=
  match eng.transcribe with
  | Except.error e =>
    { events := errEvents cb e, stats := stats, fileDeleted := false,
      chatCalledWith := none, synthOutcome := none }
  | Except.ok userText =>
    if isBlank userText then
      { events := [], stats := stats, fileDeleted := false,
        chatCalledWith := none, synthOutcome := none }
    else
      let ev1 := if cb.onUserSpeech then [Event.userSpeechCb userText] else []
      match eng.chat userText with
      | Except.error e =>
        { events := ev1 ++ errEvents cb e, stats := stats, fileDeleted := false,
          chatCalledWith := some userText, synthOutcome := none }
      | Except.ok aiResponse =>
        let ev2 := ev1 ++ (if cb.onAiResponse then [Event.aiResponseCb aiResponse] else [])
        { events := ev2 ++ [Event.synthSubmitted aiResponse],
          stats :=
            { total_requests := stats.total_requests + 1,
              total_time := stats.total_time + latency,
              avg_response_time :=
                (stats.total_time + latency) / ((stats.total_requests : ℚ) + 1) },
          fileDeleted := true,
          chatCalledWith := some userText,
          synthOutcome := some (eng.synthesize aiResponse) }

/-- Model of `OptimizedVoiceConversation._process_audio_file_optimized`: apart from
logging strings and the `max_tokens` constant this is a verbatim copy of
the fast handler, so its model has the same body. -/
def processAudioFileOptimized (eng : Engines) (cb : Callbacks) (latency : ℚ)
    (stats : PerfStats) : TurnResult :=
  processAudioFileFast eng cb latency stats

/-- Result of the baseline handler, which keeps no statistics. -/
structure BaseTurnResult where
  events : List Event
  fileDeleted : Bool
  chatCalledWith : Option String
deriving DecidableEq

/-- Model of `VoiceConversation._process_audio_file` (baseline variant): the same
stages, but synthesis+playback runs synchronously on the handler thread
before the recording file is deleted, so a synthesis failure reaches the
`except` block and prevents the deletion. -/
def processAudioFile (eng : Engines) (cb : Callbacks) : BaseTurnResult :=
  match eng.transcribe with
  | Except.error e =>
    { events := errEvents cb e, fileDeleted := false, chatCalledWith := none }
  | Except.ok userText =>
    if isBlank userText then
      { events := [], fileDeleted := false, chatCalledWith := none }
    else
      let ev1 := if cb.onUserSpeech then [Event.userSpeechCb userText] else []
      match eng.chat userText with
      | Except.error e =>
        { events := ev1 ++ errEvents cb e, fileDeleted := false,
          chatCalledWith := some userText }
      | Except.ok aiResponse =>
        let ev2 := ev1 ++ (if cb.onAiResponse then [Event.aiResponseCb aiResponse] else [])
        match eng.synthesize aiResponse with
        | Except.error e =>
          { events := ev2 ++ errEvents cb e, fileDeleted := false,
            chatCalledWith := some userText }
        | Except.ok _ =>
          { events := ev2, fileDeleted := true, chatCalledWith := some userText }

/-- A sequence of turns fed to the fast handler: each element carries the
engine results for that turn and the measured latency.  The statistics are
threaded through. -/
def processTurns (cb : Callbacks) (turns : List (Engines × ℚ))
    (stats : PerfStats) : PerfStats :=
  turns.foldl (fun st el => (processAudioFileFast el.1 cb el.2 st).stats) stats

/-- A turn completes successfully when transcription returns non-blank
text and the reply engine succeeds (synthesis is fire-and-forget and does
not influence the handler). -/
def successfulTurn (e : Engines) : Prop :=
  ∃ t r, e.transcribe = Except.ok t ∧ isBlank t = false ∧ e.chat t = Except.ok r

/-! ## Lazy start (optimized_voice_conversation.py)

`OptimizedVoiceConversation._wait_for_initialization` polls the
`is_initialized` flag every 0.1 s.  Time is modelled in poll steps of
0.1 s: `initAt = some a` means the background thread sets the flag `a`
steps (that is, `a / 10` seconds) after the wait starts, `none` means it
never does. -/

/-- Whether the flag is visible at poll step `k`. -/
def is_init_at (initAt : Option ℕ) (k : ℕ) : Bool :=
  match initAt with
  | none => false
  | some a => decide (a ≤ k)

/-- The `while not self.is_initialized and (time.time() - start_time) <
timeout:` loop; `k` counts the 0.1 s sleeps performed so far, so the
elapsed time is `k / 10` seconds.  After the loop the source returns the
flag, which is what makes a flag set during the final sleep win even when
the timeout has already elapsed.  The fuel only bounds the iteration
count; `Nat.ceil (10 * timeout) + 1` always suffices. -/
def waitLoop (initAt : Option ℕ) (timeout : ℚ) : ℕ → ℕ → Bool
  | 0, k => is_init_at initAt k
  | fuel + 1, k =>
    if is_init_at initAt k = false ∧ (k : ℚ) / 10 < timeout then
      waitLoop initAt timeout fuel (k + 1)
    else is_init_at initAt k

/-- Model of `OptimizedVoiceConversation._wait_for_initialization(timeout)`:
`true` models a successful return, `false` the timeout outcome the
callers treat as not-ready. -/
def wait_for_initialization (initAt : Option ℕ) (timeout : ℚ) : Bool :=
  if is_init_at initAt 0 then true
  else waitLoop initAt timeout (Nat.ceil (10 * timeout) + 1) 0

/-! ## Start/stop state handling -/

/-- The start/stop-relevant state of `AudioRecorder`: the `is_recording`
flag and the number of live capture threads it has spawned. -/
structure RecorderState where
  is_recording : Bool
  activeThreads : ℕ
deriving DecidableEq

/-- Model of `AudioRecorder.start_continuous_recording`: a no-op while already
recording, otherwise sets the flag and spawns one capture thread. -/
def start_continuous_recording (s : RecorderState) : RecorderState :=
  if s.is_recording then s
  else { is_recording := true, activeThreads := s.activeThreads + 1 }

/-- Model of `AudioRecorder.stop_continuous_recording`: a no-op while not
recording, otherwise clears the flag and joins the capture thread. -/
def stop_continuous_recording (s : RecorderState) : RecorderState :=
  if s.is_recording then
    { is_recording := false, activeThreads := s.activeThreads - 1 }
  else s

/-- The start/stop-relevant state of a conversation object together with
its recorder. -/
structure ConversationState where
  is_running : Bool
  recorder : RecorderState
deriving DecidableEq

/-- Model of `FastVoiceConversation.start_conversation` in auto mode: a no-op while
already running, otherwise sets `is_running` and starts the recorder. -/
def start_conversation (s : ConversationState) : ConversationState :=
  if s.is_running then s
  else { is_running := true, recorder := start_continuous_recording s.recorder }

/-- Model of `FastVoiceConversation.stop_conversation`. -/
def stop_conversation (s : ConversationState) : ConversationState :=
  if s.is_running then
    { is_running := false, recorder := stop_continuous_recording s.recorder }
  else s

/-- Model of `OptimizedVoiceConversation.start_conversation`: additionally returns
without touching anything when the readiness wait fails. -/
def start_conversation_optimized (ready : Bool) (s : ConversationState) :
    ConversationState :=
  if s.is_running then s
  else if ready then
    { is_running := true, recorder := start_continuous_recording s.recorder }
  else s

/-- One session-level operation. -/
inductive SessionOp where
  | start : SessionOp
  | stop : SessionOp

/-- Apply one operation to the conversation state. -/
def applyOp (s : ConversationState) : SessionOp → ConversationState
  | SessionOp.start => start_conversation s
  | SessionOp.stop => stop_conversation s

/-- The state a freshly constructed conversation starts a session in. -/
def initConversationState : ConversationState :=
  { is_running := false, recorder := { is_recording := false, activeThreads := 0 } }

/-- Run a sequence of start/stop calls from the fresh state. -/
def runSession (ops : List SessionOp) : ConversationState :=
  ops.foldl applyOp initConversationState

/-- The capture-thread invariant: exactly one live thread while recording,
none otherwise. -/
def threadInv (r : RecorderState) : Prop :=
  r.activeThreads = if r.is_recording then 1 else 0

/-! ## Concrete engine behaviours used in the analyses -/

/-- A turn on which transcription succeeds but returns the empty string
(a silent or unintelligible utterance). -/
def engEmptyText : Engines :=
  ⟨Except.ok (""), fun _ => Except.ok ("hi"), fun _ => Except.ok ()⟩

/-- A turn on which transcription returns whitespace-only text. -/
def engBlankText : Engines :=
  ⟨Except.ok (" "), fun _ => Except.ok ("r"), fun _ => Except.ok ()⟩

/-- A turn on which the synthesis task raises on the pool worker. -/
def engSynthFail : Engines :=
  ⟨Except.ok ("hi"), fun _ => Except.ok ("yo"), fun _ => Except.error ("SynthesisError")⟩

/-- A turn on which the transcription engine raises. -/
def engRecogFail : Engines :=
  ⟨Except.error ("RecognitionError"), fun _ => Except.ok ("x"), fun _ => Except.ok ()⟩

/-- A turn on which every engine succeeds. -/
def engGood : Engines :=
  ⟨Except.ok ("hello"), fun _ => Except.ok ("hi"), fun _ => Except.ok ()⟩

/-- Two successful turns with latencies 2 s and 4 s. -/
def demoTurns : List (Engines × ℚ) :=
  [(engGood, 2), (engGood, 4)]

/-! ## Helper lemmas: segmenter -/

/-- Feeding one frame to the running silence counter. -/
theorem silenceRun_cons (thr : ℚ) (sc : ℕ) (f : Frame) (l : List Frame) :
    silenceRun thr sc (f :: l) =
      silenceRun thr (if is_silence thr f then sc + 1 else 0) l := rfl

/-- The capture loop consumes a prefix of the stream. -/
theorem captureLoop_rest_le (thr : ℚ) (maxSil : ℕ) :
    ∀ fuel sc stream, ((captureLoop thr maxSil fuel sc stream).2.1).length
      ≤ stream.length := by
  intro fuel
  induction fuel with
  | zero => intro sc stream; simp [captureLoop]
  | succ fuel ih =>
    intro sc stream
    cases stream with
    | nil => simp [captureLoop]
    | cons f rest =>
      simp only [captureLoop]
      split
      · split
        · simp
        · rcases hE : captureLoop thr maxSil fuel (sc + 1) rest with ⟨b, r, c⟩
          have := ih (sc + 1) rest
          rw [hE] at this
          simpa using Nat.le_succ_of_le this
      · rcases hE : captureLoop thr maxSil fuel 0 rest with ⟨b, r, c⟩
        have := ih 0 rest
        rw [hE] at this
        simpa using Nat.le_succ_of_le this

/-- Whatever the outcome, the capture buffer is the prefix of the stream
matching its length, and the remainder is the corresponding suffix. -/
theorem captureLoop_take_drop (thr : ℚ) (maxSil : ℕ) :
    ∀ fuel sc stream buf r c,
      captureLoop thr maxSil fuel sc stream = (buf, r, c) →
      buf = stream.take buf.length ∧ r = stream.drop buf.length := by
  intro fuel
  induction fuel with
  | zero =>
    intro sc stream buf r c h
    simp only [captureLoop, Prod.mk.injEq] at h
    obtain ⟨h1, h2, -⟩ := h
    subst h1; subst h2
    simp
  | succ fuel ih =>
    intro sc stream buf r c h
    cases stream with
    | nil =>
      simp only [captureLoop, Prod.mk.injEq] at h
      obtain ⟨h1, h2, -⟩ := h
      subst h1; subst h2
      simp
    | cons f rest =>
      simp only [captureLoop] at h
      by_cases hf : is_silence thr f = true
      · rw [if_pos hf] at h
        by_cases hstop : maxSil ≤ sc + 1
        · rw [if_pos hstop] at h
          simp only [Prod.mk.injEq] at h
          obtain ⟨h1, h2, -⟩ := h
          subst h1; subst h2
          simp
        · rw [if_neg hstop] at h
          rcases hE : captureLoop thr maxSil fuel (sc + 1) rest with ⟨b, r', c'⟩
          rw [hE] at h
          simp only [Prod.mk.injEq] at h
          obtain ⟨h1, h2, -⟩ := h
          subst h1; subst h2
          obtain ⟨ih1, ih2⟩ := ih (sc + 1) rest b r' c' hE
          exact ⟨by simpa [List.take_succ_cons] using ih1,
            by simpa [List.drop_succ_cons] using ih2⟩
      · rw [if_neg hf] at h
        rcases hE : captureLoop thr maxSil fuel 0 rest with ⟨b, r', c'⟩
        rw [hE] at h
        simp only [Prod.mk.injEq] at h
        obtain ⟨h1, h2, -⟩ := h
        subst h1; subst h2
        obtain ⟨ih1, ih2⟩ := ih 0 rest b r' c' hE
        exact ⟨by simpa [List.take_succ_cons] using ih1,
          by simpa [List.drop_succ_cons] using ih2⟩

/-- Full characterisation of a capture that finishes: the buffer is a
prefix of the stream, the remainder is the matching suffix, and the
buffer is the *shortest* prefix at which the silence counter (started at
`sc`) reaches `maxSil` or the iteration budget is exhausted. -/
theorem captureLoop_spec (thr : ℚ) (maxSil : ℕ) :
    ∀ fuel sc stream buf r, sc < maxSil →
      captureLoop thr maxSil fuel sc stream = (buf, r, true) →
      buf = stream.take buf.length ∧ r = stream.drop buf.length ∧
        buf.length ≤ fuel ∧
        (maxSil ≤ silenceRun thr sc buf ∨ buf.length = fuel) ∧
        ∀ k, k < buf.length → silenceRun thr sc (buf.take k) < maxSil := by
  intro fuel
  induction fuel with
  | zero =>
    intro sc stream buf r hsc h
    simp only [captureLoop, Prod.mk.injEq] at h
    obtain ⟨h1, h2, -⟩ := h
    subst h1; subst h2
    simp
  | succ fuel ih =>
    intro sc stream buf r hsc h
    cases stream with
    | nil => simp [captureLoop] at h
    | cons f rest =>
      simp only [captureLoop] at h
      by_cases hf : is_silence thr f = true
      · rw [if_pos hf] at h
        by_cases hstop : maxSil ≤ sc + 1
        · rw [if_pos hstop] at h
          simp only [Prod.mk.injEq] at h
          obtain ⟨h1, h2, -⟩ := h
          subst h1; subst h2
          refine ⟨by simp, by simp, by simp only [List.length_singleton]; omega,
            Or.inl ?_, ?_⟩
          · simpa [silenceRun, hf] using hstop
          · intro k hk
            simp only [List.length_singleton] at hk
            have hk0 : k = 0 := by omega
            subst hk0
            simpa [silenceRun] using hsc
        · rw [if_neg hstop] at h
          rcases hE : captureLoop thr maxSil fuel (sc + 1) rest with ⟨b, r', c⟩
          rw [hE] at h
          simp only [Prod.mk.injEq] at h
          obtain ⟨h1, h2, h3⟩ := h
          subst h1; subst h2; subst h3
          obtain ⟨ih1, ih2, ih3, ih4, ih5⟩ := ih (sc + 1) rest b r' (by omega) hE
          refine ⟨?_, ?_, by simpa using Nat.succ_le_succ ih3, ?_, ?_⟩
          · simpa [List.take_succ_cons] using ih1
          · simpa [List.drop_succ_cons] using ih2
          · rcases ih4 with h4 | h4
            · exact Or.inl (by simpa [silenceRun_cons, hf] using h4)
            · exact Or.inr (by simp [h4])
          · intro k hk
            cases k with
            | zero => simpa [silenceRun] using hsc
            | succ j =>
              have hj : j < b.length := by simpa using hk
              simpa [List.take_succ_cons, silenceRun_cons, hf] using ih5 j hj
      · rw [if_neg hf] at h
        rcases hE : captureLoop thr maxSil fuel 0 rest with ⟨b, r', c⟩
        rw [hE] at h
        simp only [Prod.mk.injEq] at h
        obtain ⟨h1, h2, h3⟩ := h
        subst h1; subst h2; subst h3
        obtain ⟨ih1, ih2, ih3, ih4, ih5⟩ := ih 0 rest b r' (by omega) hE
        refine ⟨?_, ?_, by simpa using Nat.succ_le_succ ih3, ?_, ?_⟩
        · simpa [List.take_succ_cons] using ih1
        · simpa [List.drop_succ_cons] using ih2
        · rcases ih4 with h4 | h4
          · exact Or.inl (by simpa [silenceRun_cons, hf] using h4)
          · exact Or.inr (by simp [h4])
        · intro k hk
          cases k with
          | zero => simpa [silenceRun] using hsc
          | succ j =>
            have hj : j < b.length := by simpa using hk
            simpa [List.take_succ_cons, silenceRun_cons, hf] using ih5 j hj

/-- The number of idle-loop iterations is irrelevant as long as it covers
the stream. -/
theorem workerAux_fuel (thr : ℚ) (maxSil maxFrames minFrames : ℕ) :
    ∀ fuel fuel' stream, stream.length ≤ fuel → stream.length ≤ fuel' →
      workerAux thr maxSil maxFrames minFrames fuel stream =
        workerAux thr maxSil maxFrames minFrames fuel' stream := by
  intro fuel
  induction fuel with
  | zero =>
    intro fuel' stream h _
    have : stream = [] := List.length_eq_zero.mp (Nat.le_zero.mp h)
    subst this
    cases fuel' <;> simp [workerAux]
  | succ fuel ih =>
    intro fuel' stream h h'
    cases stream with
    | nil => cases fuel' <;> simp [workerAux]
    | cons f rest =>
      cases fuel' with
      | zero => simp at h'
      | succ fuel' =>
        have hrest : rest.length ≤ fuel := by simpa using h
        have hrest' : rest.length ≤ fuel' := by simpa using h'
        simp only [workerAux]
        by_cases hf : detect_sound thr f = true
        · rw [if_pos hf, if_pos hf]
          rcases hE : captureLoop thr maxSil maxFrames 0 rest with ⟨b, r, c⟩
          have hr : r.length ≤ rest.length := by
            have := captureLoop_rest_le thr maxSil maxFrames 0 rest
            rw [hE] at this
            exact this
          cases c
          · rfl
          · rw [ih fuel' r (le_trans hr hrest) (le_trans hr hrest')]
        · rw [if_neg hf, if_neg hf]
          exact ih fuel' rest hrest hrest'

/-- A silent frame in the idle state is discarded. -/
theorem worker_cons_silent (thr : ℚ) (maxSil maxFrames minFrames : ℕ)
    (f : Frame) (rest : List Frame) (hf : is_silence thr f = true) :
    continuous_recording_worker thr maxSil maxFrames minFrames (f :: rest) =
      continuous_recording_worker thr maxSil maxFrames minFrames rest := by
  simp [continuous_recording_worker, workerAux, detect_sound, hf]

/-- A loud frame in the idle state starts a capture on the following
frames; once the capture finishes, the buffer is emitted unless too
short, and the worker continues in the idle state on the remainder. -/
theorem worker_cons_loud (thr : ℚ) (maxSil maxFrames minFrames : ℕ)
    (f : Frame) (rest buf r : List Frame)
    (hf : detect_sound thr f = true)
    (hc : captureLoop thr maxSil maxFrames 0 rest = (buf, r, true)) :
    continuous_recording_worker thr maxSil maxFrames minFrames (f :: rest) =
      (if buf.length < minFrames then [] else [buf]) ++
        continuous_recording_worker thr maxSil maxFrames minFrames r := by
  have hr : r.length ≤ rest.length := by
    have := captureLoop_rest_le thr maxSil maxFrames 0 rest
    rw [hc] at this
    exact this
  simp only [continuous_recording_worker, List.length_cons, workerAux, hf, if_true, hc]
  rw [workerAux_fuel thr maxSil maxFrames minFrames rest.length r.length r hr le_rfl]
  split <;> simp

/-- An all-silent stream produces no utterances. -/
theorem worker_all_silent (thr : ℚ) (maxSil maxFrames minFrames : ℕ) :
    ∀ stream, (∀ f ∈ stream, is_silence thr f = true) →
      continuous_recording_worker thr maxSil maxFrames minFrames stream = [] := by
  intro stream
  induction stream with
  | nil => intro _; rfl
  | cons f rest ih =>
    intro h
    rw [worker_cons_silent thr maxSil maxFrames minFrames f rest (h f (by simp))]
    exact ih fun g hg => h g (by simp [hg])

/-- Every emitted utterance passed the minimum-length gate. -/
theorem workerAux_min_length (thr : ℚ) (maxSil maxFrames minFrames : ℕ) :
    ∀ fuel stream u, u ∈ workerAux thr maxSil maxFrames minFrames fuel stream →
      minFrames ≤ u.length := by
  intro fuel
  induction fuel with
  | zero => intro stream u hu; cases stream <;> simp [workerAux] at hu
  | succ fuel ih =>
    intro stream u hu
    cases stream with
    | nil => simp [workerAux] at hu
    | cons f rest =>
      simp only [workerAux] at hu
      by_cases hf : detect_sound thr f = true
      · rw [if_pos hf] at hu
        rcases hE : captureLoop thr maxSil maxFrames 0 rest with ⟨b, r, c⟩
        rw [hE] at hu
        cases c
        · simp at hu
        · simp only at hu
          by_cases hlen : b.length < minFrames
          · rw [if_pos hlen] at hu
            exact ih r u hu
          · rw [if_neg hlen] at hu
            rcases List.mem_cons.mp hu with rfl | hu'
            · omega
            · exact ih r u hu'
      · rw [if_neg hf] at hu
        exact ih rest u hu

/-! ## Helper lemmas: orchestrator -/

/-- The statistics update a successfully completed turn performs. -/
theorem processAudioFileFast_stats_success (eng : Engines) (cb : Callbacks)
    (latency : ℚ) (stats : PerfStats) (t r : String)
    (ht : eng.transcribe = Except.ok t) (hb : isBlank t = false)
    (hr : eng.chat t = Except.ok r) :
    (processAudioFileFast eng cb latency stats).stats =
      { total_requests := stats.total_requests + 1,
        total_time := stats.total_time + latency,
        avg_response_time :=
          (stats.total_time + latency) / ((stats.total_requests : ℚ) + 1) } := by
  simp [processAudioFileFast, ht, hb, hr]

/-- Folding the fast handler over successful turns accumulates count and
time and keeps the average equal to the cumulative time over the count. -/
theorem processTurns_spec (cb : Callbacks) :
    ∀ turns stats, (∀ el ∈ turns, successfulTurn el.1) → turns ≠ [] →
      processTurns cb turns stats =
        { total_requests := stats.total_requests + turns.length,
          total_time := stats.total_time + (turns.map fun el => el.2).sum,
          avg_response_time :=
            (stats.total_time + (turns.map fun el => el.2).sum) /
              ((stats.total_requests : ℚ) + turns.length) } := by
  intro turns
  induction turns with
  | nil => intro stats _ hne; exact absurd rfl hne
  | cons el rest ih =>
    intro stats hall _
    obtain ⟨t, r, ht, hb, hr⟩ := hall el (by simp)
    have hstep := processAudioFileFast_stats_success el.1 cb el.2 stats t r ht hb hr
    have hfold : processTurns cb (el :: rest) stats =
        processTurns cb rest (processAudioFileFast el.1 cb el.2 stats).stats := by
      simp [processTurns]
    by_cases hrest : rest = []
    · subst hrest
      rw [hfold]
      simp only [processTurns, List.foldl_nil, hstep]
      simp [PerfStats.mk.injEq]
    · rw [hfold, ih ((processAudioFileFast el.1 cb el.2 stats).stats)
        (fun x hx => hall x (by simp [hx])) hrest, hstep]
      simp only [PerfStats.mk.injEq]
      refine ⟨by simp; omega, by ring_nf; simp [add_comm, add_assoc, add_left_comm], ?_⟩
      have hnum : stats.total_time + el.2 + (rest.map fun x => x.2).sum =
          stats.total_time + ((el :: rest).map fun x => x.2).sum := by
        simp; ring
      have hden : ((stats.total_requests + 1 : ℕ) : ℚ) + (rest.length : ℚ) =
          (stats.total_requests : ℚ) + (((el :: rest).length : ℕ) : ℚ) := by
        push_cast
        simp
        ring
      rw [hnum, hden]

/-! ## Helper lemmas: lazy start -/

/-- If the flag is never set, the wait loop always reports failure. -/
theorem waitLoop_none (timeout : ℚ) :
    ∀ fuel k, waitLoop none timeout fuel k = false := by
  intro fuel
  induction fuel with
  | zero => intro k; rfl
  | succ fuel ih =>
    intro k
    simp only [waitLoop, is_init_at]
    split
    · exact ih (k + 1)
    · rfl

/-- With adequate fuel, the wait loop succeeds exactly when the flag goes
up no later than poll step `⌈10·timeout⌉`. -/
theorem waitLoop_some (timeout : ℚ) (a : ℕ) :
    ∀ fuel k, Nat.ceil (10 * timeout) ≤ k + fuel → k ≤ Nat.ceil (10 * timeout) →
      (waitLoop (some a) timeout fuel k = true ↔ a ≤ Nat.ceil (10 * timeout)) := by
  intro fuel
  induction fuel with
  | zero =>
    intro k h1 h2
    have hk : k = Nat.ceil (10 * timeout) := by omega
    subst hk
    simp [waitLoop, is_init_at]
  | succ fuel ih =>
    intro k h1 h2
    simp only [waitLoop]
    by_cases ha : a ≤ k
    · have hi : is_init_at (some a) k = true := by simp [is_init_at, ha]
      rw [hi]
      simp only [Bool.true_eq_false, false_and, if_false]
      simp only [true_iff]
      omega
    · have hi : is_init_at (some a) k = false := by
        simp only [is_init_at, decide_eq_false_iff_not]
        omega
      rw [hi]
      simp only [true_and, if_true]
      by_cases hcond : (k : ℚ) / 10 < timeout
      · rw [if_pos hcond]
        have hk10 : (k : ℚ) < 10 * timeout := by
          have := (div_lt_iff₀ (by norm_num : (0 : ℚ) < 10)).mp hcond
          linarith
        have hkc : k < Nat.ceil (10 * timeout) := Nat.lt_ceil.mpr hk10
        exact ih (k + 1) (by omega) (by omega)
      · rw [if_neg hcond]
        have h10 : 10 * timeout ≤ (k : ℚ) := by
          have hle := le_of_not_lt hcond
          have := (le_div_iff₀ (by norm_num : (0 : ℚ) < 10)).mp hle
          linarith
        have hck : Nat.ceil (10 * timeout) ≤ k := Nat.ceil_le.mpr h10
        have hkc : k = Nat.ceil (10 * timeout) := by omega
        simp only [Bool.false_eq_true, false_iff]
        omega

/-! ## Helper lemmas: session state -/

/-- One start/stop call preserves the capture-thread invariant. -/
theorem applyOp_inv (s : ConversationState) (op : SessionOp)
    (h : threadInv s.recorder) : threadInv (applyOp s op).recorder := by
  cases op with
  | start =>
    simp only [applyOp, start_conversation]
    by_cases hr : s.is_running
    · rw [if_pos hr]; exact h
    · rw [if_neg hr]
      simp only [start_continuous_recording]
      by_cases hrec : s.recorder.is_recording
      · rw [if_pos hrec]; exact h
      · rw [if_neg hrec]
        simp only [threadInv, hrec, if_false] at h
        simp [threadInv, h]
  | stop =>
    simp only [applyOp, stop_conversation]
    by_cases hr : s.is_running
    · rw [if_pos hr]
      simp only [stop_continuous_recording]
      by_cases hrec : s.recorder.is_recording
      · rw [if_pos hrec]
        simp only [threadInv, hrec, if_true] at h
        simp [threadInv, h]
      · rw [if_neg hrec]; exact h
    · rw [if_neg hr]; exact h

/-- The capture-thread invariant holds after any sequence of calls. -/
theorem foldl_applyOp_inv :
    ∀ ops s, threadInv s.recorder →
      threadInv ((List.foldl applyOp s ops)).recorder := by
  intro ops
  induction ops with
  | nil => intro s h; exact h
  | cons op rest ih =>
    intro s h
    exact ih _ (applyOp_inv s op h)

/-! ## Claims -/

/-- C1, counterexample: with threshold 1000 and amplitudes
[0,0,1500,1500,0,0,0] at 3 frames per second and one second of trailing
silence, the single emitted utterance is frames 4 through 7 of the stream
(`scenarioFrames.drop 3`), not frames 3 through 7 (`scenarioFrames.drop 2`)
as the claim states: the triggering frame is consumed by `_detect_sound`
and never buffered. -/
theorem c1_counterexample :
    continuous_recording_worker (1000 / 32768) 3 90 1 scenarioFrames =
        [scenarioFrames.drop 3] ∧
      scenarioFrames.drop 3 ≠ scenarioFrames.drop 2 := by
  constructor
  · norm_num [continuous_recording_worker, workerAux, captureLoop, is_silence,
      detect_sound, maxAmplitude, scenarioFrames]
  · decide

/-- C1, amended: when the segmenter is idle and a frame exceeding the
threshold arrives, it transitions to capturing and the emitted utterance
consists of the frames *after* the triggering frame (a prefix of the
remaining stream); in the scenario the single emitted utterance contains
frames 4 through 7. -/
theorem c1_amended :
    (∀ (thr : ℚ) (maxSil maxFrames minFrames : ℕ) (f : Frame)
      (rest buf r : List Frame),
      detect_sound thr f = true →
      captureLoop thr maxSil maxFrames 0 rest = (buf, r, true) →
      minFrames ≤ buf.length →
      continuous_recording_worker thr maxSil maxFrames minFrames (f :: rest) =
        buf :: continuous_recording_worker thr maxSil maxFrames minFrames r ∧
        buf = rest.take buf.length) ∧
    continuous_recording_worker (1000 / 32768) 3 90 1 scenarioFrames =
      [scenarioFrames.drop 3] := by
  constructor
  · intro thr maxSil maxFrames minFrames f rest buf r hf hc hmin
    refine ⟨?_, (captureLoop_take_drop thr maxSil maxFrames 0 rest buf r true hc).1⟩
    rw [worker_cons_loud thr maxSil maxFrames minFrames f rest buf r hf hc,
      if_neg (by omega)]
    simp
  · norm_num [continuous_recording_worker, workerAux, captureLoop, is_silence,
      detect_sound, maxAmplitude, scenarioFrames]

/-- C1, witness: the amended statement applied to the scenario suffix. -/
theorem c1_witness :
    continuous_recording_worker (1000 / 32768) 3 90 1
        [[1500], [1500], [0], [0], [0]] =
      [[1500], [0], [0], [0]] ::
        continuous_recording_worker (1000 / 32768) 3 90 1 [] :=
  (c1_amended.1 (1000 / 32768) 3 90 1 [1500] [[1500], [0], [0], [0]]
    [[1500], [0], [0], [0]] []
    (by norm_num [detect_sound, is_silence, maxAmplitude])
    (by norm_num [captureLoop, is_silence, maxAmplitude])
    (by norm_num)).1

/-- C2, counterexample: a turn whose transcription call succeeds with the
empty string returns before the deletion step, so the on-disk recording
is not deleted, contradicting the claim that it is deleted whenever
transcription succeeds. -/
theorem c2_counterexample :
    engEmptyText.transcribe = Except.ok ("") ∧
    (processAudioFileFast engEmptyText ⟨true, true, true⟩ 1
      ⟨0, 0, 0⟩).fileDeleted = false :=
  ⟨rfl, rfl⟩

/-- C2, amended: the recording file is deleted exactly on turns that reach
the synthesis-submission step, that is, when transcription succeeds with
non-blank text and the reply engine succeeds (in the baseline handler the
synchronous synthesis call must succeed as well); on an empty or
whitespace-only transcription, or an engine exception, the file stays on
disk. -/
theorem c2_amended (eng : Engines) (cb : Callbacks) (latency : ℚ)
    (stats : PerfStats) :
    ((processAudioFileFast eng cb latency stats).fileDeleted = true ↔
      ∃ t r, eng.transcribe = Except.ok t ∧ isBlank t = false ∧
        eng.chat t = Except.ok r) ∧
    ((processAudioFile eng cb).fileDeleted = true ↔
      ∃ t r, eng.transcribe = Except.ok t ∧ isBlank t = false ∧
        eng.chat t = Except.ok r ∧ eng.synthesize r = Except.ok ()) := by
  constructor
  · cases htr : eng.transcribe with
    | error e => simp [processAudioFileFast, htr]
    | ok t =>
      by_cases hb : isBlank t = true
      · simp [processAudioFileFast, htr, hb]
      · have hb2 : isBlank t = false := by simpa using hb
        cases hch : eng.chat t with
        | error e => simp [processAudioFileFast, htr, hb2, hch]
        | ok r => simp [processAudioFileFast, htr, hb2, hch]
  · cases htr : eng.transcribe with
    | error e => simp [processAudioFile, htr]
    | ok t =>
      by_cases hb : isBlank t = true
      · simp [processAudioFile, htr, hb]
      · have hb2 : isBlank t = false := by simpa using hb
        cases hch : eng.chat t with
        | error e => simp [processAudioFile, htr, hb2, hch]
        | ok r =>
          cases hsy : eng.synthesize r with
          | error e => simp [processAudioFile, htr, hb2, hch, hsy]
          | ok u => cases u; simp [processAudioFile, htr, hb2, hch, hsy]

/-- C3: a turn whose transcription is empty or whitespace-only invokes
neither the reply engine nor synthesis, fires no callback, deletes
nothing and leaves the statistics unchanged — in both the fast and the
optimized handler. -/
theorem c3 (eng : Engines) (cb : Callbacks) (latency : ℚ) (stats : PerfStats)
    (t : String) (ht : eng.transcribe = Except.ok t) (hb : isBlank t = true) :
    processAudioFileFast eng cb latency stats =
      { events := [], stats := stats, fileDeleted := false,
        chatCalledWith := none, synthOutcome := none } ∧
    processAudioFileOptimized eng cb latency stats =
      { events := [], stats := stats, fileDeleted := false,
        chatCalledWith := none, synthOutcome := none } := by
  have h : processAudioFileFast eng cb latency stats =
      { events := [], stats := stats, fileDeleted := false,
        chatCalledWith := none, synthOutcome := none } := by
    simp [processAudioFileFast, ht, hb]
  exact ⟨h, h⟩

/-- C3, witness: a whitespace-only transcription on concrete inputs. -/
theorem c3_witness :
    processAudioFileFast engBlankText ⟨true, true, true⟩ 2 ⟨5, 10, 2⟩ =
      { events := [], stats := ⟨5, 10, 2⟩, fileDeleted := false,
        chatCalledWith := none, synthOutcome := none } :=
  (c3 engBlankText ⟨true, true, true⟩ 2 ⟨5, 10, 2⟩ (" ") rfl (by decide)).1

/-- C4, counterexample: when the synthesis task raises, the exception is
swallowed on the pool worker — `on_error` is never invoked — and the
statistics of the turn are still updated, contradicting the claim for
the synthesis stage. -/
theorem c4_counterexample :
    engSynthFail.synthesize ("yo") = Except.error ("SynthesisError") ∧
    (∀ e, Event.errorCb e ∉
      (processAudioFileFast engSynthFail ⟨true, true, true⟩ 1 ⟨0, 0, 0⟩).events) ∧
    (processAudioFileFast engSynthFail ⟨true, true, true⟩ 1
      ⟨0, 0, 0⟩).stats.total_requests = 1 := by
  have hb : isBlank ("hi") = false := by decide
  refine ⟨rfl, ?_, ?_⟩
  · intro e
    simp [processAudioFileFast, engSynthFail, hb, errEvents]
  · simp [processAudioFileFast, engSynthFail, hb]

/-- C4, amended: an exception of the transcription or reply engine aborts
the remaining stages, invokes the registered `on_error` with the raised
exception, leaves the statistics unchanged and does not escape, so any
following turn is processed exactly as if the failed turn had not
happened; a synthesis exception, however, surfaces only on the pool
worker and is not reported. -/
theorem c4_amended (eng : Engines) (cb : Callbacks) (latency : ℚ)
    (stats : PerfStats) (hcbe : cb.onError = true) :
    (∀ e, eng.transcribe = Except.error e →
      processAudioFileFast eng cb latency stats =
        { events := [Event.errorCb e], stats := stats, fileDeleted := false,
          chatCalledWith := none, synthOutcome := none }) ∧
    (∀ t e, eng.transcribe = Except.ok t → isBlank t = false →
      eng.chat t = Except.error e →
      processAudioFileFast eng cb latency stats =
        { events := (if cb.onUserSpeech then [Event.userSpeechCb t] else []) ++
            [Event.errorCb e],
          stats := stats, fileDeleted := false,
          chatCalledWith := some t, synthOutcome := none }) ∧
    (∀ e, (eng.transcribe = Except.error e ∨
        ∃ t, eng.transcribe = Except.ok t ∧ isBlank t = false ∧
          eng.chat t = Except.error e) →
      ∀ (eng2 : Engines) (lat2 : ℚ),
        processAudioFileFast eng2 cb lat2
            (processAudioFileFast eng cb latency stats).stats =
          processAudioFileFast eng2 cb lat2 stats) := by
  refine ⟨?_, ?_, ?_⟩
  · intro e htr
    simp [processAudioFileFast, htr, errEvents, hcbe]
  · intro t e htr hb hch
    simp [processAudioFileFast, htr, hb, hch, errEvents, hcbe]
  · intro e hfail eng2 lat2
    have hst : (processAudioFileFast eng cb latency stats).stats = stats := by
      rcases hfail with htr | ⟨t, htr, hb, hch⟩
      · simp [processAudioFileFast, htr]
      · simp [processAudioFileFast, htr, hb, hch]
    rw [hst]

/-- C4, witness: a failing transcription engine on concrete inputs. -/
theorem c4_witness :
    processAudioFileFast engRecogFail ⟨true, true, true⟩ 1 ⟨0, 0, 0⟩ =
      { events := [Event.errorCb ("RecognitionError")], stats := ⟨0, 0, 0⟩,
        fileDeleted := false, chatCalledWith := none, synthOutcome := none } :=
  (c4_amended engRecogFail ⟨true, true, true⟩ 1 ⟨0, 0, 0⟩ rfl).1
    ("RecognitionError") rfl

/-- C5: while capturing, every frame is buffered regardless of amplitude
(the buffer is a plain prefix of the stream), the silence counter is the
stated fold, capture ends exactly at the first frame at which the
consecutive silence reaches `maxSil` frames or the buffer reaches
`maxFrames`, and the worker then continues in the idle state on the
remaining stream. -/
theorem c5 (thr : ℚ) (maxSil maxFrames minFrames : ℕ) (f : Frame)
    (stream buf r : List Frame)
    (hsil : 1 ≤ maxSil)
    (hf : detect_sound thr f = true)
    (hc : captureLoop thr maxSil maxFrames 0 stream = (buf, r, true)) :
    buf = stream.take buf.length ∧
    r = stream.drop buf.length ∧
    (maxSil ≤ silenceRun thr 0 buf ∨ buf.length = maxFrames) ∧
    (∀ k, k < buf.length → silenceRun thr 0 (buf.take k) < maxSil ∧ k < maxFrames) ∧
    continuous_recording_worker thr maxSil maxFrames minFrames (f :: stream) =
      (if buf.length < minFrames then [] else [buf]) ++
        continuous_recording_worker thr maxSil maxFrames minFrames r := by
  obtain ⟨h1, h2, h3, h4, h5⟩ :=
    captureLoop_spec thr maxSil maxFrames 0 stream buf r (by omega) hc
  exact ⟨h1, h2, h4, fun k hk => ⟨h5 k hk, by omega⟩,
    worker_cons_loud thr maxSil maxFrames minFrames f stream buf r hf hc⟩

/-- C5, witness: the stop condition of the scenario capture, via `c5`. -/
theorem c5_witness :
    3 ≤ silenceRun (1000 / 32768) 0 [[1500], [0], [0], [0]] ∨
      ([[1500], [0], [0], [0]] : List Frame).length = 90 :=
  (c5 (1000 / 32768) 3 90 1 [1500] [[1500], [0], [0], [0]]
    [[1500], [0], [0], [0]] [] (by norm_num)
    (by norm_num [detect_sound, is_silence, maxAmplitude])
    (by norm_num [captureLoop, is_silence, maxAmplitude])).2.2.1

/-- C6: a stream in which every frame is below the threshold never leaves
the idle state: the worker emits no utterance, so no file is written and
the completion callback never fires. -/
theorem c6 (thr : ℚ) (maxSil maxFrames minFrames : ℕ) (stream : List Frame)
    (h : ∀ f ∈ stream, is_silence thr f = true) :
    continuous_recording_worker thr maxSil maxFrames minFrames stream = [] :=
  worker_all_silent thr maxSil maxFrames minFrames stream h

/-- C6, witness: a concrete all-quiet stream with the default threshold. -/
theorem c6_witness :
    continuous_recording_worker (1 / 100) 2 90 1 [[5], [0], [3]] = [] :=
  c6 (1 / 100) 2 90 1 [[5], [0], [3]] (by
    intro f hf
    simp only [List.mem_cons, List.not_mem_nil, or_false] at hf
    rcases hf with rfl | rfl | rfl <;> norm_num [is_silence, maxAmplitude])

/-- C7: a finished capture shorter than the minimum length is discarded
silently — the worker behaves as if the capture had not happened and
continues on the remainder — and consequently every utterance that is
emitted (written to disk and handed to the downstream callback) has at
least the minimum length. -/
theorem c7 (thr : ℚ) (maxSil maxFrames minFrames : ℕ) (f : Frame)
    (stream buf r : List Frame)
    (hf : detect_sound thr f = true)
    (hc : captureLoop thr maxSil maxFrames 0 stream = (buf, r, true))
    (hshort : buf.length < minFrames) :
    continuous_recording_worker thr maxSil maxFrames minFrames (f :: stream) =
      continuous_recording_worker thr maxSil maxFrames minFrames r ∧
    ∀ (s u : List Frame),
      u ∈ continuous_recording_worker thr maxSil maxFrames minFrames s →
        minFrames ≤ u.length := by
  constructor
  · rw [worker_cons_loud thr maxSil maxFrames minFrames f stream buf r hf hc,
      if_pos hshort]
    simp
  · intro s u hu
    exact workerAux_min_length thr maxSil maxFrames minFrames s.length s u hu

/-- C7, witness: a one-frame noise burst below the three-frame minimum is
dropped. -/
theorem c7_witness :
    continuous_recording_worker (1000 / 32768) 1 90 3 [[2000], [0]] =
      continuous_recording_worker (1000 / 32768) 1 90 3 [] :=
  (c7 (1000 / 32768) 1 90 3 [2000] [[0]] [[0]] []
    (by norm_num [detect_sound, is_silence, maxAmplitude])
    (by norm_num [captureLoop, is_silence, maxAmplitude])
    (by norm_num)).1

/-- C8: after N ≥ 1 successful turns with latencies L1..LN starting from
fresh statistics, the turn count is N, the cumulative latency is the sum
of the latencies, and the average is exactly that sum divided by N. -/
theorem c8 (cb : Callbacks) (turns : List (Engines × ℚ))
    (hall : ∀ el ∈ turns, successfulTurn el.1) (hlen : 1 ≤ turns.length) :
    processTurns cb turns ⟨0, 0, 0⟩ =
      { total_requests := turns.length,
        total_time := (turns.map fun el => el.2).sum,
        avg_response_time :=
          (turns.map fun el => el.2).sum / (turns.length : ℚ) } := by
  have hne : turns ≠ [] := by
    intro h
    subst h
    simp at hlen
  rw [processTurns_spec cb turns ⟨0, 0, 0⟩ hall hne]
  simp

/-- C8, witness: two successful turns with latencies 2 and 4. -/
theorem c8_witness :
    processTurns ⟨true, true, true⟩ demoTurns ⟨0, 0, 0⟩ =
      { total_requests := demoTurns.length,
        total_time := (demoTurns.map fun el => el.2).sum,
        avg_response_time :=
          (demoTurns.map fun el => el.2).sum / (demoTurns.length : ℚ) } :=
  c8 ⟨true, true, true⟩ demoTurns (by
    intro el hel
    simp only [demoTurns, List.mem_cons, List.not_mem_nil, or_false] at hel
    rcases hel with rfl | rfl <;>
      exact ⟨"hello", "hi", rfl, by decide, rfl⟩) (by simp [demoTurns])

/-- C9, counterexample: with a 0.25 s timeout and initialization
finishing after 0.3 s — that is, after the timeout has elapsed — the wait
still returns success, because the flag check after the final 0.1 s sleep
wins; this contradicts the claim that a timeout elapsing before
initialization completes yields the not-ready outcome. -/
theorem c9_counterexample :
    wait_for_initialization (some 3) (1 / 4) = true ∧
      (1 / 4 : ℚ) < 3 / 10 := by
  constructor
  · have hceil : Nat.ceil ((10 : ℚ) * (1 / 4)) = 3 := by
      rw [Nat.ceil_eq_iff (by norm_num)]
      norm_num
    simp only [wait_for_initialization, hceil]
    norm_num [waitLoop, is_init_at]
  · norm_num

/-- C9, amended: the wait returns success exactly when the background
thread sets the readiness flag no later than poll step `⌈10·timeout⌉`
(polling every 0.1 s).  In particular it succeeds whenever initialization
completes within the timeout, also when called before initialization
finishes, and it reports not-ready when the flag is still down at the
first poll at or after the timeout; a flag raised during that final poll
interval is reported as success even though the timeout has elapsed. -/
theorem c9_amended (initAt : Option ℕ) (timeout : ℚ) :
    wait_for_initialization initAt timeout = true ↔
      ∃ a, initAt = some a ∧ a ≤ Nat.ceil (10 * timeout) := by
  cases initAt with
  | none => simp [wait_for_initialization, is_init_at, waitLoop_none]
  | some a =>
    simp only [wait_for_initialization]
    by_cases h0 : a = 0
    · subst h0
      have h : is_init_at (some 0) 0 = true := by simp [is_init_at]
      rw [h]
      simp
    · have h : is_init_at (some a) 0 = false := by
        simp only [is_init_at, decide_eq_false_iff_not]
        omega
      rw [h]
      simp only [Bool.false_eq_true, if_false]
      rw [waitLoop_some timeout a (Nat.ceil (10 * timeout) + 1) 0 (by omega)
        (by omega)]
      simp

/-- C10: starting while already active is a no-op (same state, no extra
capture thread) for the recorder and for the fast and optimized
conversation entry points, and any sequence of session-level start/stop
calls from the fresh state leaves at most one live capture thread. -/
theorem c10 :
    (∀ r : RecorderState, r.is_recording = true →
      start_continuous_recording r = r) ∧
    (∀ s : ConversationState, s.is_running = true → start_conversation s = s) ∧
    (∀ (ready : Bool) (s : ConversationState), s.is_running = true →
      start_conversation_optimized ready s = s) ∧
    ∀ ops : List SessionOp, (runSession ops).recorder.activeThreads ≤ 1 := by
  refine ⟨?_, ?_, ?_, ?_⟩
  · intro r h
    simp [start_continuous_recording, h]
  · intro s h
    simp [start_conversation, h]
  · intro ready s h
    simp [start_conversation_optimized, h]
  · intro ops
    have hinit : threadInv initConversationState.recorder := by
      simp [threadInv, initConversationState]
    have hinv := foldl_applyOp_inv ops initConversationState hinit
    rw [threadInv] at hinv
    simp only [runSession]
    rw [hinv]
    split <;> omega

/-- C10, witness: a double start followed by a stop never exceeds one
capture thread, and concrete already-running states are fixed points. -/
theorem c10_witness :
    start_continuous_recording ⟨true, 1⟩ = ⟨true, 1⟩ ∧
    start_conversation ⟨true, ⟨true, 1⟩⟩ = ⟨true, ⟨true, 1⟩⟩ ∧
    start_conversation_optimized false ⟨true, ⟨true, 1⟩⟩ = ⟨true, ⟨true, 1⟩⟩ ∧
    (runSession [SessionOp.start, SessionOp.start,
      SessionOp.stop]).recorder.activeThreads ≤ 1 :=
  ⟨c10.1 ⟨true, 1⟩ rfl, c10.2.1 ⟨true, ⟨true, 1⟩⟩ rfl,
    c10.2.2.1 false ⟨true, ⟨true, 1⟩⟩ rfl,
    c10.2.2.2 [SessionOp.start, SessionOp.start, SessionOp.stop]⟩
